import Mathlib

/-!
Shallow embedding of the biosample flattening pipeline
(`src/rust-hello-world/src/main.rs`): a stream of semi-structured
documents is projected into fixed-column `attribute` and `package`
rows, with per-element fault isolation and verbose diagnostics.

JSON-like values are modelled by `Json`; objects keep their fields as
an association list (serde_json maps have no duplicate keys, so
first-match lookup is faithful).  The serde decoders for the three
record shapes (`AttributeData`, `PackageData`, `Biosample`) are
translated into `Option`-returning functions; the main loop becomes
`runLoop` over an explicit `RunState`.
-/

inductive Json where
  | null
  | bool (b : Bool)
  | num (n : Int)
  | str (s : String)
  | arr (xs : List Json)
  | obj (fields : List (String × Json))

def lookupField (fs : List (String × Json)) (k : String) : Option Json :=
  match fs with
  | [] => none
  | (k2, v) :: rest => if k2 = k then some v else lookupField rest k

def Json.isObj : Json → Bool
  | .obj _ => true
  | _ => false

def Json.isArr : Json → Bool
  | .arr _ => true
  | _ => false

/-- serde decoding of an `Option<String>` struct field from a JSON value:
`null` maps to `none`, a string to `some`, anything else is a type error. -/
def decodeOptString : Json → Option (Option String)
  | Json.null => some none
  | Json.str s => some (some s)
  | _ => none

/-- serde decoding of one known optional text field of a flattened struct:
an absent key maps to `none` (no error), a present key must hold
`null` or a string. -/
def decodeField (fs : List (String × Json)) (k : String) : Option (Option String) :=
  match lookupField fs k with
  | none => some none
  | some v => decodeOptString v

/-- Rust `struct AttributeData` from `main.rs`: five optional text fields plus a
flattened residual map of unrecognized fields. -/
structure AttributeData where
  content : Option String
  attribute_name : Option String
  harmonized_name : Option String
  display_name : Option String
  unit : Option String
  extra : List (String × Json)

/-- Rust `struct PackageData` from `main.rs`. -/
structure PackageData where
  content : Option String
  display_name : Option String
  extra : List (String × Json)

/-- Rust `struct Biosample` from `main.rs`: a required string `id`, optional raw
`Attributes` and `Package` values, and a flattened residual map. -/
structure Biosample where
  id : String
  attributes : Option Json
  package : Option Json
  extra : List (String × Json)

def attrKnownKeys : List String :=
  ["content", "attribute_name", "harmonized_name", "display_name", "unit"]

def pkgKnownKeys : List String :=
  ["content", "display_name"]

/-- Decoder `serde_json::from_value::<AttributeData>`: fails on any non-object and on
any known field holding a non-string, non-null value; unrecognized fields
land in the residual `extra` map. -/
def decodeAttributeData : Json → Option AttributeData
  | Json.obj fs =>
    match decodeField fs "content", decodeField fs "attribute_name",
          decodeField fs "harmonized_name", decodeField fs "display_name",
          decodeField fs "unit" with
    | some c, some an, some hn, some dn, some u =>
        some ⟨c, an, hn, dn, u, fs.filter (fun p => !(attrKnownKeys.contains p.1))⟩
    | _, _, _, _, _ => none
  | _ => none

/-- Decoder `serde_json::from_value::<PackageData>`. -/
def decodePackageData : Json → Option PackageData
  | Json.obj fs =>
    match decodeField fs "content", decodeField fs "display_name" with
    | some c, some dn =>
        some ⟨c, dn, fs.filter (fun p => !(pkgKnownKeys.contains p.1))⟩
    | _, _ => none
  | _ => none

/-- Deserialization of a whole source document into `Biosample`: the string
field `id` is required (a document lacking it fails to deserialize as a
whole); `Attributes`/`Package` are optional raw values (`null` decodes to
`none` for an `Option` field). -/
def decodeBiosample : Json → Option Biosample
  | Json.obj fs =>
    match lookupField fs "id" with
    | some (Json.str s) =>
        some ⟨s,
              (match lookupField fs "Attributes" with
               | none => none
               | some Json.null => none
               | some v => some v),
              (match lookupField fs "Package" with
               | none => none
               | some Json.null => none
               | some v => some v),
              fs.filter (fun p => !(["id", "Attributes", "Package"].contains p.1))⟩
    | _ => none
  | _ => none

def i64Max : Int := 9223372036854775807

def i64Min : Int := -9223372036854775808

def digitsToNat (cs : List Char) : Nat :=
  cs.foldl (fun a c => a * 10 + (c.toNat - 48)) 0

def allDigits (cs : List Char) : Bool :=
  !cs.isEmpty && cs.all (fun c => c.isDigit)

/-- Rust's `str::parse::<i64>`: optional single leading sign, then one or
more ASCII digits, rejecting everything else and out-of-range values. -/
def parseI64 (s : String) : Option Int :=
  match s.toList with
  | '+' :: rest =>
      if allDigits rest && ((digitsToNat rest : Int) ≤ i64Max) then
        some (digitsToNat rest)
      else none
  | '-' :: rest =>
      if allDigits rest && (i64Min ≤ -(digitsToNat rest : Int)) then
        some (-(digitsToNat rest : Int))
      else none
  | cs =>
      if allDigits cs && ((digitsToNat cs : Int) ≤ i64Max) then
        some (digitsToNat cs)
      else none

/-- The expression `biosample.id.parse::<i64>().unwrap_or(-1)`: identifier policy (a) with
sentinel `-1`. -/
def rowId (s : String) : Int :=
  (parseI64 s).getD (-1)

/-- One row of the sink's `attribute` table, fields in schema order. -/
structure AttributeRow where
  content : String
  attribute_name : String
  id : Int
  harmonized_name : String
  display_name : String
  unit : String
  deriving DecidableEq

/-- One row of the sink's `package` table, fields in schema order. -/
structure PackageRow where
  content : String
  display_name : String
  id : Int
  deriving DecidableEq

/-- Row construction from a decoded record: each absent optional text field
is defaulted to the empty string here (`unwrap_or("")`), not during
decoding. -/
def mkAttrRow (rid : Int) (a : AttributeData) : AttributeRow :=
  ⟨a.content.getD "", a.attribute_name.getD "", rid,
   a.harmonized_name.getD "", a.display_name.getD "", a.unit.getD ""⟩

def mkPkgRow (rid : Int) (p : PackageData) : PackageRow :=
  ⟨p.content.getD "", p.display_name.getD "", rid⟩

/-- The verbose diagnostics `main.rs` can print, one constructor per
`println!` site in the processing loop. -/
inductive Diag where
  | foundAttributes (n : Nat)
  | extraAttrFields (extra : List (String × Json))
  | failedParseAttribute (v : Json)
  | attributeNotArray
  | noAttributeField
  | attributesNotObject
  | noAttributes
  | extraPackageFields (id : String) (extra : List (String × Json))
  | failedParsePackage (id : String)

/-- A row emission event, used to record in which order the two kinds of
rows are sent to the sink. -/
inductive Emit where
  | attr (r : AttributeRow)
  | pkg (r : PackageRow)
  deriving DecidableEq

def Emit.isAttr : Emit → Bool
  | .attr _ => true
  | .pkg _ => false

/-- The body of the `for attr_value in attrs` loop: a decodable element
yields one row (plus a residual-fields diagnostic when verbose); an
undecodable element yields no row, only a diagnostic when verbose. -/
def processAttrElement (verbose : Bool) (rid : Int) (x : Json) :
    Option AttributeRow × List Diag :=
  match decodeAttributeData x with
  | some a =>
      (some (mkAttrRow rid a),
       if !a.extra.isEmpty && verbose then [Diag.extraAttrFields a.extra] else [])
  | none =>
      (none, if verbose then [Diag.failedParseAttribute x] else [])

def processAttrArray (verbose : Bool) (rid : Int) (xs : List Json) :
    List AttributeRow × List Diag :=
  ((xs.map (processAttrElement verbose rid)).filterMap Prod.fst,
   (if verbose then [Diag.foundAttributes xs.length] else [])
     ++ (xs.map (processAttrElement verbose rid)).flatMap Prod.snd)

def processAttrInner (verbose : Bool) (rid : Int) (av : Json) :
    List AttributeRow × List Diag :=
  match av with
  | Json.arr xs => processAttrArray verbose rid xs
  | _ => ([], if verbose then [Diag.attributeNotArray] else [])

def processAttrObj (verbose : Bool) (rid : Int) (fs : List (String × Json)) :
    List AttributeRow × List Diag :=
  match lookupField fs "Attribute" with
  | some av => processAttrInner verbose rid av
  | none => ([], if verbose then [Diag.noAttributeField] else [])

def processAttrValue (verbose : Bool) (rid : Int) (v : Json) :
    List AttributeRow × List Diag :=
  match v with
  | Json.obj fs => processAttrObj verbose rid fs
  | _ => ([], if verbose then [Diag.attributesNotObject] else [])

/-- The `// Process Attributes` block of the main loop (lines 156-194). -/
def processAttributes (verbose : Bool) (b : Biosample) :
    List AttributeRow × List Diag :=
  match b.attributes with
  | some v => processAttrValue verbose (rowId b.id) v
  | none => ([], if verbose then [Diag.noAttributes] else [])

/-- The `// Process Package` block of the main loop (lines 196-222). -/
def processPackage (verbose : Bool) (b : Biosample) :
    List PackageRow × List Diag :=
  match b.package with
  | some v =>
    match decodePackageData v with
    | some p =>
        ([mkPkgRow (rowId b.id) p],
         if !p.extra.isEmpty && verbose then [Diag.extraPackageFields b.id p.extra] else [])
    | none => ([], if verbose then [Diag.failedParsePackage b.id] else [])
  | none => ([], [])

/-- One iteration of the main loop on a decoded document: the Attributes
block runs first, then the Package block, so all attribute rows of a
document are emitted before its package row. -/
def processDoc (verbose : Bool) (b : Biosample) : List Emit × List Diag :=
  ((processAttributes verbose b).1.map Emit.attr
     ++ (processPackage verbose b).1.map Emit.pkg,
   (processAttributes verbose b).2 ++ (processPackage verbose b).2)

/-- Every `Emit.attr` event precedes every `Emit.pkg` event. -/
def attrsThenPkgs : List Emit → Bool
  | [] => true
  | .attr _ :: rest => attrsThenPkgs rest
  | .pkg _ :: rest => rest.all (fun e => !(Emit.isAttr e))

/-- Every `Emit.pkg` event precedes every `Emit.attr` event. -/
def pkgsThenAttrs : List Emit → Bool
  | [] => true
  | .pkg _ :: rest => pkgsThenAttrs rest
  | .attr _ :: rest => rest.all Emit.isAttr

/-- Contents of the sink's two tables. -/
structure SinkTables where
  attributeTable : List AttributeRow
  packageTable : List PackageRow
  deriving DecidableEq

def emptyTables : SinkTables := ⟨[], []⟩

/-- Statements `DROP TABLE IF EXISTS` followed by `CREATE TABLE` for both tables
(lines 102-125): whatever the sink held before, both tables are empty
afterwards. -/
def recreateTables (_prior : SinkTables) : SinkTables := emptyTables

/-- Mutable state of the main loop: the sink tables, the diagnostics
printed so far, the processed-document counter, and whether the run
aborted on a document that failed to deserialize. -/
structure RunState where
  attributeTable : List AttributeRow
  packageTable : List PackageRow
  diags : List Diag
  processed : Nat
  aborted : Bool

/-- One main-loop iteration on a successfully deserialized document. -/
def stepDoc (verbose : Bool) (st : RunState) (b : Biosample) : RunState :=
  ⟨st.attributeTable ++ (processAttributes verbose b).1,
   st.packageTable ++ (processPackage verbose b).1,
   st.diags ++ (processAttributes verbose b).2 ++ (processPackage verbose b).2,
   st.processed + 1,
   st.aborted⟩

/-- The `while let Some(biosample) = cursor.try_next().await?` loop: a
document that fails to deserialize as `Biosample` makes `try_next` return
an error, which `?` propagates — the run aborts there and no later
document is touched. -/
def runLoop (verbose : Bool) (st : RunState) : List Json → RunState
  | [] => st
  | j :: rest =>
    match decodeBiosample j with
    | some b => runLoop verbose (stepDoc verbose st b) rest
    | none => { st with aborted := true }

/-- Modelled from the spec: the document store's application of the
`limit` find option (the store itself is an external collaborator; the
code only chooses between a capped and an uncapped query, lines 85-91).
The spec's Document Stream contract: "optionally truncated to a
caller-supplied maximum count", cap `0` meaning unbounded. -/
def applyLimit (limit : Int) (docs : List Json) : List Json :=
  if limit > 0 then docs.take limit.toNat else docs

/-- Loop state at pipeline start: the freshly recreated (hence empty)
tables, no diagnostics, zero processed documents. -/
def initState (prior : SinkTables) : RunState :=
  ⟨(recreateTables prior).attributeTable, (recreateTables prior).packageTable,
   [], 0, false⟩

/-- A whole run: recreate the sink tables (discarding prior contents),
then fold the main loop over the (possibly capped) document stream. -/
def runPipeline (verbose : Bool) (limit : Int) (prior : SinkTables)
    (docs : List Json) : RunState :=
  runLoop verbose (initState prior) (applyLimit limit docs)

def sinkOf (st : RunState) : SinkTables :=
  ⟨st.attributeTable, st.packageTable⟩

/-- Attribute rows contributed by one raw stream document. -/
def attrRowsOfJson (verbose : Bool) (j : Json) : List AttributeRow :=
  match decodeBiosample j with
  | some b => (processAttributes verbose b).1
  | none => []

/-- Placeholder record used only as the (never reached) default of
`Option.getD` in statements where every decode is known to succeed. -/
def dummyAttr : AttributeData := ⟨none, none, none, none, none, []⟩

/-! ## Helper lemmas -/

theorem processAttrElement_fst (v : Bool) (rid : Int) (x : Json) :
    (processAttrElement v rid x).1 = (decodeAttributeData x).map (mkAttrRow rid) := by
  unfold processAttrElement
  cases decodeAttributeData x <;> rfl

theorem processAttrArray_fst (v : Bool) (rid : Int) (xs : List Json) :
    (processAttrArray v rid xs).1
      = xs.filterMap (fun x => (decodeAttributeData x).map (mkAttrRow rid)) := by
  have h : Prod.fst ∘ processAttrElement v rid
      = fun x => (decodeAttributeData x).map (mkAttrRow rid) := by
    funext x
    exact processAttrElement_fst v rid x
  show (xs.map (processAttrElement v rid)).filterMap Prod.fst = _
  rw [List.filterMap_map, h]

theorem processAttributes_fst (v : Bool) (b : Biosample) (fs : List (String × Json))
    (xs : List Json) (hA : b.attributes = some (Json.obj fs))
    (hl : lookupField fs "Attribute" = some (Json.arr xs)) :
    (processAttributes v b).1
      = xs.filterMap (fun x => (decodeAttributeData x).map (mkAttrRow (rowId b.id))) := by
  unfold processAttributes
  rw [hA]
  simp only [processAttrValue, processAttrObj, hl, processAttrInner]
  exact processAttrArray_fst v (rowId b.id) xs

theorem filterMap_map_of_all_isSome {α β γ : Type} (d : α → Option β) (mk : β → γ)
    (dflt : β) : ∀ xs : List α, xs.all (fun x => (d x).isSome) = true →
    xs.filterMap (fun x => (d x).map mk) = xs.map (fun x => mk ((d x).getD dflt)) := by
  intro xs
  induction xs with
  | nil => intro _; rfl
  | cons x rest ih =>
    intro h
    rw [List.all_cons, Bool.and_eq_true] at h
    obtain ⟨b, hb⟩ := Option.isSome_iff_exists.mp h.1
    simp [List.filterMap_cons, hb, ih h.2]

theorem runLoop_attributeTable (v : Bool) : ∀ (docs : List Json) (st : RunState),
    docs.all (fun j => (decodeBiosample j).isSome) = true →
    (runLoop v st docs).attributeTable
      = st.attributeTable ++ docs.flatMap (attrRowsOfJson v) := by
  intro docs
  induction docs with
  | nil => intro st _; simp [runLoop]
  | cons j rest ih =>
    intro st h
    rw [List.all_cons, Bool.and_eq_true] at h
    obtain ⟨b, hb⟩ := Option.isSome_iff_exists.mp h.1
    rw [List.flatMap_cons]
    unfold runLoop
    rw [hb]
    rw [ih (stepDoc v st b) h.2]
    unfold attrRowsOfJson
    rw [hb]
    simp [stepDoc]

theorem runLoop_processed_le (v : Bool) : ∀ (docs : List Json) (st : RunState),
    (runLoop v st docs).processed ≤ st.processed + docs.length := by
  intro docs
  induction docs with
  | nil => intro st; simp [runLoop]
  | cons j rest ih =>
    intro st
    unfold runLoop
    cases hb : decodeBiosample j with
    | some b =>
      have h2 := ih (stepDoc v st b)
      have h3 : (stepDoc v st b).processed = st.processed + 1 := rfl
      show (runLoop v (stepDoc v st b) rest).processed ≤ st.processed + (j :: rest).length
      rw [h3] at h2
      rw [List.length_cons]
      omega
    | none =>
      show st.processed ≤ st.processed + (j :: rest).length
      exact Nat.le_add_right _ _

theorem runLoop_processed_of_not_aborted (v : Bool) : ∀ (docs : List Json) (st : RunState),
    (runLoop v st docs).aborted = false →
    (runLoop v st docs).processed = st.processed + docs.length := by
  intro docs
  induction docs with
  | nil => intro st _; simp [runLoop]
  | cons j rest ih =>
    intro st hab
    unfold runLoop at hab ⊢
    cases hb : decodeBiosample j with
    | some b =>
      rw [hb] at hab
      have hab2 : (runLoop v (stepDoc v st b) rest).aborted = false := hab
      have h2 := ih (stepDoc v st b) hab2
      have h3 : (stepDoc v st b).processed = st.processed + 1 := rfl
      show (runLoop v (stepDoc v st b) rest).processed = st.processed + (j :: rest).length
      rw [h2, h3, List.length_cons]
      omega
    | none =>
      rw [hb] at hab
      exact Bool.noConfusion (show true = false from hab)

theorem runLoop_abort (v : Bool) (bad : Json) (hbad : decodeBiosample bad = none) :
    ∀ (pre : List Json) (rest : List Json) (st : RunState),
    pre.all (fun j => (decodeBiosample j).isSome) = true →
    runLoop v st (pre ++ bad :: rest) = { runLoop v st pre with aborted := true } := by
  intro pre
  induction pre with
  | nil =>
    intro rest st _
    simp only [List.nil_append]
    unfold runLoop
    rw [hbad]
  | cons j tl ih =>
    intro rest st h
    rw [List.all_cons, Bool.and_eq_true] at h
    obtain ⟨b, hb⟩ := Option.isSome_iff_exists.mp h.1
    rw [List.cons_append]
    unfold runLoop
    rw [hb]
    exact ih rest (stepDoc v st b) h.2

theorem processAttributes_congr (v : Bool) (b1 b2 : Biosample)
    (ha : b1.attributes = b2.attributes) (hid : b1.id = b2.id) :
    processAttributes v b1 = processAttributes v b2 := by
  unfold processAttributes
  rw [ha, hid]

theorem attrsThenPkgs_append (ar : List AttributeRow) (pr : List PackageRow) :
    attrsThenPkgs (ar.map Emit.attr ++ pr.map Emit.pkg) = true := by
  induction ar with
  | nil =>
    cases pr with
    | nil => rfl
    | cons p tl =>
      simp only [List.map_nil, List.nil_append, List.map_cons, attrsThenPkgs]
      rw [List.all_eq_true]
      intro e he
      rw [List.mem_map] at he
      obtain ⟨r, _, rfl⟩ := he
      rfl
  | cons a tl ih =>
    simpa only [List.map_cons, List.cons_append, attrsThenPkgs] using ih

/-! ## Claims -/

/-- C1: for every document whose `Attributes` sub-structure contains an
`Attribute` array of length N in which all N elements decode successfully
as `AttributeData`, exactly N attribute rows are emitted for that
document, the i-th row derived from the i-th array element (original
order); and across a run, the attribute table is the in-stream-order
concatenation of each document's attribute rows. -/
theorem c1_attribute_rows_count_and_order (v : Bool) (b : Biosample)
    (fs : List (String × Json)) (xs : List Json)
    (hA : b.attributes = some (Json.obj fs))
    (hl : lookupField fs "Attribute" = some (Json.arr xs))
    (hdec : xs.all (fun x => (decodeAttributeData x).isSome) = true) :
    (processAttributes v b).1
        = xs.map (fun x => mkAttrRow (rowId b.id) ((decodeAttributeData x).getD dummyAttr))
      ∧ (processAttributes v b).1.length = xs.length
      ∧ ∀ (docs : List Json) (t : SinkTables),
          docs.all (fun j => (decodeBiosample j).isSome) = true →
          (runPipeline v 0 t docs).attributeTable = docs.flatMap (attrRowsOfJson v) := by
  have h1 : (processAttributes v b).1
      = xs.map (fun x => mkAttrRow (rowId b.id) ((decodeAttributeData x).getD dummyAttr)) := by
    rw [processAttributes_fst v b fs xs hA hl]
    exact filterMap_map_of_all_isSome decodeAttributeData (mkAttrRow (rowId b.id))
      dummyAttr xs hdec
  refine ⟨h1, ?_, ?_⟩
  · rw [h1, List.length_map]
  · intro docs t hall
    have h2 := runLoop_attributeTable v docs (initState t) hall
    unfold runPipeline applyLimit
    simpa [initState, recreateTables, emptyTables] using h2

/-- Witness for C1 at a concrete two-element document. -/
theorem c1_attribute_rows_count_and_order_witness :
    (processAttributes true
        ⟨"7", some (Json.obj [("Attribute",
            Json.arr [Json.obj [("content", Json.str "x")], Json.obj []])]), none, []⟩).1
      = [⟨"x", "", 7, "", "", ""⟩, ⟨"", "", 7, "", "", ""⟩] := by
  have h := c1_attribute_rows_count_and_order true
    ⟨"7", some (Json.obj [("Attribute",
        Json.arr [Json.obj [("content", Json.str "x")], Json.obj []])]), none, []⟩
    [("Attribute", Json.arr [Json.obj [("content", Json.str "x")], Json.obj []])]
    [Json.obj [("content", Json.str "x")], Json.obj []]
    rfl rfl rfl
  rw [h.1]
  rfl

theorem applyLimit_zero (docs : List Json) : applyLimit 0 docs = docs := by
  unfold applyLimit
  simp

theorem processAttrArray_id (v : Bool) (rid : Int) (xs : List Json) :
    ∀ r ∈ (processAttrArray v rid xs).1, r.id = rid := by
  intro r hr
  rw [processAttrArray_fst] at hr
  rw [List.mem_filterMap] at hr
  obtain ⟨x, _, hx⟩ := hr
  cases hd : decodeAttributeData x with
  | none => rw [hd] at hx; exact Option.noConfusion hx
  | some a =>
    rw [hd] at hx
    simp only [Option.map_some'] at hx
    injection hx with hx2
    rw [← hx2]
    rfl

theorem processAttrValue_obj (v : Bool) (rid : Int) (fs : List (String × Json)) :
    processAttrValue v rid (Json.obj fs) = processAttrObj v rid fs := rfl

theorem processAttrValue_not_obj (v : Bool) (rid : Int) (j : Json)
    (h : j.isObj = false) :
    processAttrValue v rid j = ([], if v then [Diag.attributesNotObject] else []) := by
  cases j <;> first | rfl | simp [Json.isObj] at h

theorem processAttrObj_none (v : Bool) (rid : Int) (fs : List (String × Json))
    (hl : lookupField fs "Attribute" = none) :
    processAttrObj v rid fs = ([], if v then [Diag.noAttributeField] else []) := by
  unfold processAttrObj
  rw [hl]

theorem processAttrObj_some (v : Bool) (rid : Int) (fs : List (String × Json))
    (av : Json) (hl : lookupField fs "Attribute" = some av) :
    processAttrObj v rid fs = processAttrInner v rid av := by
  unfold processAttrObj
  rw [hl]

theorem processAttrInner_arr (v : Bool) (rid : Int) (xs : List Json) :
    processAttrInner v rid (Json.arr xs) = processAttrArray v rid xs := rfl

theorem processAttrInner_not_arr (v : Bool) (rid : Int) (av : Json)
    (h : av.isArr = false) :
    processAttrInner v rid av = ([], if v then [Diag.attributeNotArray] else []) := by
  cases av <;> first | rfl | simp [Json.isArr] at h

theorem processAttrArray_snd (v : Bool) (rid : Int) (xs : List Json) :
    (processAttrArray v rid xs).2
      = (if v then [Diag.foundAttributes xs.length] else [])
          ++ (xs.map (processAttrElement v rid)).flatMap Prod.snd := rfl

theorem processAttributes_some (v : Bool) (b : Biosample) (j : Json)
    (h : b.attributes = some j) :
    processAttributes v b = processAttrValue v (rowId b.id) j := by
  unfold processAttributes
  rw [h]

theorem processAttributes_none (v : Bool) (b : Biosample)
    (h : b.attributes = none) :
    processAttributes v b = ([], if v then [Diag.noAttributes] else []) := by
  unfold processAttributes
  rw [h]

theorem json_obj_of_isObj (j : Json) (h : j.isObj = true) :
    ∃ fs, j = Json.obj fs := by
  cases j <;> simp [Json.isObj] at h ⊢

theorem json_arr_of_isArr (j : Json) (h : j.isArr = true) :
    ∃ xs, j = Json.arr xs := by
  cases j <;> simp [Json.isArr] at h ⊢

theorem processAttrValue_id (v : Bool) (rid : Int) (j : Json) :
    ∀ r ∈ (processAttrValue v rid j).1, r.id = rid := by
  intro r hr
  cases hobj : j.isObj with
  | false => rw [processAttrValue_not_obj v rid j hobj] at hr; simp at hr
  | true =>
    obtain ⟨fs, rfl⟩ := json_obj_of_isObj j hobj
    rw [processAttrValue_obj] at hr
    cases hl : lookupField fs "Attribute" with
    | none => rw [processAttrObj_none v rid fs hl] at hr; simp at hr
    | some av =>
      rw [processAttrObj_some v rid fs av hl] at hr
      cases harr : av.isArr with
      | false => rw [processAttrInner_not_arr v rid av harr] at hr; simp at hr
      | true =>
        obtain ⟨xs, rfl⟩ := json_arr_of_isArr av harr
        rw [processAttrInner_arr] at hr
        exact processAttrArray_id v rid xs r hr

theorem processAttributes_id (v : Bool) (b : Biosample) :
    ∀ r ∈ (processAttributes v b).1, r.id = rowId b.id := by
  intro r hr
  unfold processAttributes at hr
  cases hA : b.attributes with
  | none => rw [hA] at hr; simp at hr
  | some j =>
    rw [hA] at hr
    exact processAttrValue_id v (rowId b.id) j r hr

theorem processAttrElement_snd (v : Bool) (rid rid2 : Int) (x : Json) :
    (processAttrElement v rid x).2 = (processAttrElement v rid2 x).2 := by
  unfold processAttrElement
  cases decodeAttributeData x <;> rfl

theorem attrElementDiags_indep (v : Bool) (rid rid2 : Int) : ∀ xs : List Json,
    (xs.map (processAttrElement v rid)).flatMap Prod.snd
      = (xs.map (processAttrElement v rid2)).flatMap Prod.snd := by
  intro xs
  induction xs with
  | nil => rfl
  | cons x tl ih =>
    simp only [List.map_cons, List.flatMap_cons, ih, processAttrElement_snd v rid rid2 x]

theorem processAttrValue_snd (v : Bool) (rid rid2 : Int) (j : Json) :
    (processAttrValue v rid j).2 = (processAttrValue v rid2 j).2 := by
  cases hobj : j.isObj with
  | false =>
    rw [processAttrValue_not_obj v rid j hobj, processAttrValue_not_obj v rid2 j hobj]
  | true =>
    obtain ⟨fs, rfl⟩ := json_obj_of_isObj j hobj
    rw [processAttrValue_obj, processAttrValue_obj]
    cases hl : lookupField fs "Attribute" with
    | none => rw [processAttrObj_none v rid fs hl, processAttrObj_none v rid2 fs hl]
    | some av =>
      rw [processAttrObj_some v rid fs av hl, processAttrObj_some v rid2 fs av hl]
      cases harr : av.isArr with
      | false =>
        rw [processAttrInner_not_arr v rid av harr,
            processAttrInner_not_arr v rid2 av harr]
      | true =>
        obtain ⟨xs, rfl⟩ := json_arr_of_isArr av harr
        rw [processAttrInner_arr, processAttrInner_arr,
            processAttrArray_snd, processAttrArray_snd,
            attrElementDiags_indep v rid rid2 xs]

/-- Unfolding of the attribute-shape decoder on an object value. -/
theorem decodeAttributeData_obj (fs : List (String × Json)) :
    decodeAttributeData (Json.obj fs)
      = match decodeField fs "content", decodeField fs "attribute_name",
          decodeField fs "harmonized_name", decodeField fs "display_name",
          decodeField fs "unit" with
        | some c, some an, some hn, some dn, some u =>
            some ⟨c, an, hn, dn, u, fs.filter (fun p => !(attrKnownKeys.contains p.1))⟩
        | _, _, _, _, _ => none := rfl

/-- Unfolding of the package-shape decoder on an object value. -/
theorem decodePackageData_obj (gs : List (String × Json)) :
    decodePackageData (Json.obj gs)
      = match decodeField gs "content", decodeField gs "display_name" with
        | some c, some dn =>
            some ⟨c, dn, gs.filter (fun p => !(pkgKnownKeys.contains p.1))⟩
        | _, _ => none := rfl

theorem decodeAttributeData_fields (fs : List (String × Json)) (a2 : AttributeData)
    (hda : decodeAttributeData (Json.obj fs) = some a2) :
    some a2.content = decodeField fs "content"
    ∧ some a2.attribute_name = decodeField fs "attribute_name"
    ∧ some a2.harmonized_name = decodeField fs "harmonized_name"
    ∧ some a2.display_name = decodeField fs "display_name"
    ∧ some a2.unit = decodeField fs "unit" := by
  rw [decodeAttributeData_obj] at hda
  split at hda
  · injection hda with h6
    subst h6
    simp_all
  · exact Option.noConfusion hda

theorem decodePackageData_fields (gs : List (String × Json)) (p2 : PackageData)
    (hdp : decodePackageData (Json.obj gs) = some p2) :
    some p2.content = decodeField gs "content"
    ∧ some p2.display_name = decodeField gs "display_name" := by
  rw [decodePackageData_obj] at hdp
  split at hdp
  · injection hdp with h3
    subst h3
    simp_all
  · exact Option.noConfusion hdp

theorem processPackage_none (v : Bool) (b : Biosample) (h : b.package = none) :
    processPackage v b = ([], []) := by
  unfold processPackage
  rw [h]

theorem processPackage_some (v : Bool) (b : Biosample) (pv : Json)
    (h : b.package = some pv) (p : PackageData) (hd : decodePackageData pv = some p) :
    processPackage v b
      = ([mkPkgRow (rowId b.id) p],
         if !p.extra.isEmpty && v then [Diag.extraPackageFields b.id p.extra] else []) := by
  unfold processPackage
  rw [h]
  simp only [hd]

theorem processPackage_fail (v : Bool) (b : Biosample) (pv : Json)
    (h : b.package = some pv) (hd : decodePackageData pv = none) :
    processPackage v b = ([], if v then [Diag.failedParsePackage b.id] else []) := by
  unfold processPackage
  rw [h]
  simp only [hd]

/-- C2: an attribute-array element that fails to decode is skipped — no
row is emitted for it and the rows emitted for the remaining elements of
the same document are exactly those the document would produce without
the failing element. -/
theorem c2_element_failure_is_isolated (v : Bool) (bWith bWithout : Biosample)
    (fs gs : List (String × Json)) (xs ys : List Json) (bad : Json)
    (hbad : decodeAttributeData bad = none)
    (hA : bWith.attributes = some (Json.obj fs))
    (hl : lookupField fs "Attribute" = some (Json.arr (xs ++ bad :: ys)))
    (hA2 : bWithout.attributes = some (Json.obj gs))
    (hl2 : lookupField gs "Attribute" = some (Json.arr (xs ++ ys)))
    (hid : bWithout.id = bWith.id) :
    (processAttributes v bWith).1 = (processAttributes v bWithout).1 := by
  rw [processAttributes_fst v bWith fs (xs ++ bad :: ys) hA hl,
      processAttributes_fst v bWithout gs (xs ++ ys) hA2 hl2, hid]
  simp [List.filterMap_append, List.filterMap_cons, hbad]

/-- Witness for C2: dropping the undecodable element `Json.num 3` leaves
the rows of the surrounding elements unchanged. -/
theorem c2_element_failure_is_isolated_witness :
    (processAttributes true
        ⟨"1", some (Json.obj [("Attribute", Json.arr [Json.obj [], Json.num 3])]),
         none, []⟩).1
      = (processAttributes true
          ⟨"1", some (Json.obj [("Attribute", Json.arr [Json.obj []])]), none, []⟩).1 :=
  c2_element_failure_is_isolated true
    ⟨"1", some (Json.obj [("Attribute", Json.arr [Json.obj [], Json.num 3])]), none, []⟩
    ⟨"1", some (Json.obj [("Attribute", Json.arr [Json.obj []])]), none, []⟩
    [("Attribute", Json.arr [Json.obj [], Json.num 3])]
    [("Attribute", Json.arr [Json.obj []])]
    [Json.obj []] [] (Json.num 3) rfl rfl rfl rfl rfl rfl

/-- C3 counterexample: the claim also asserts that, with diagnostics
enabled, an identifier parse failure is noted.  The code has no such
diagnostic: for the document with the non-numeric identifier `abc` the
verbose diagnostics are identical to those of the same document with the
numeric identifier `123`, even though the emitted row carries the
sentinel `-1` instead of `123` — so no observer of the diagnostics can
see the parse failure. -/
theorem c3_counterexample :
    rowId "abc" = -1
    ∧ (processDoc true
        ⟨"abc", some (Json.obj [("Attribute", Json.arr [Json.obj [("content", Json.str "x")]])]),
         none, []⟩).1
        = [Emit.attr ⟨"x", "", -1, "", "", ""⟩]
    ∧ (processDoc true
        ⟨"abc", some (Json.obj [("Attribute", Json.arr [Json.obj [("content", Json.str "x")]])]),
         none, []⟩).2
        = (processDoc true
            ⟨"123", some (Json.obj [("Attribute", Json.arr [Json.obj [("content", Json.str "x")]])]),
             none, []⟩).2 :=
  ⟨rfl, rfl, rfl⟩

/-- C3 (amended): under identifier policy (a) every row derived from a
document carries the same identifier — the document's identifier parsed
as an integer, or the sentinel `-1` when the parse fails — but the parse
failure is NOT noted by any diagnostic: the diagnostics of the attribute
path are unchanged under any replacement of the identifier field. -/
theorem c3_same_identifier_parse_failure_not_noted (v : Bool) (b : Biosample) :
    (∀ r ∈ (processAttributes v b).1, r.id = rowId b.id)
    ∧ (∀ r ∈ (processPackage v b).1, r.id = rowId b.id)
    ∧ (parseI64 b.id = none → rowId b.id = -1)
    ∧ (∀ n, parseI64 b.id = some n → rowId b.id = n)
    ∧ (∀ s, (processAttributes v { b with id := s }).2 = (processAttributes v b).2) := by
  refine ⟨processAttributes_id v b, ?_, ?_, ?_, ?_⟩
  · intro r hr
    cases hp : b.package with
    | none => rw [processPackage_none v b hp] at hr; simp at hr
    | some pv =>
      cases hd : decodePackageData pv with
      | none => rw [processPackage_fail v b pv hp hd] at hr; simp at hr
      | some p =>
        rw [processPackage_some v b pv hp p hd] at hr
        rw [List.mem_singleton] at hr
        rw [hr]
        rfl
  · intro h
    unfold rowId
    rw [h]
    rfl
  · intro n h
    unfold rowId
    rw [h]
    rfl
  · intro s
    cases hA : b.attributes with
    | none =>
      rw [processAttributes_none v b hA]
      rw [processAttributes_none v ⟨s, none, b.package, b.extra⟩ rfl]
    | some j =>
      rw [processAttributes_some v b j hA]
      rw [processAttributes_some v ⟨s, some j, b.package, b.extra⟩ j rfl]
      exact processAttrValue_snd v (rowId s) (rowId b.id) j

/-- Witness for C3 (amended) at the concrete identifier `abc`. -/
theorem c3_same_identifier_parse_failure_not_noted_witness :
    rowId "abc" = -1
    ∧ ∀ r ∈ (processAttributes true
        ⟨"abc", some (Json.obj [("Attribute", Json.arr [Json.obj []])]), none, []⟩).1,
        r.id = rowId "abc" :=
  ⟨(c3_same_identifier_parse_failure_not_noted true
      ⟨"abc", some (Json.obj [("Attribute", Json.arr [Json.obj []])]), none, []⟩).2.2.1 rfl,
   (c3_same_identifier_parse_failure_not_noted true
      ⟨"abc", some (Json.obj [("Attribute", Json.arr [Json.obj []])]), none, []⟩).1⟩

/-- C4: a document whose `Attributes` field is absent, or is not an
object, or lacks an `Attribute` key, or whose `Attribute` value is not an
array, yields zero attribute rows; the run continues with the next
document; and with verbose diagnostics each of the four conditions
produces its own distinct diagnostic. -/
theorem c4_structural_absence_four_cases (v : Bool) (b1 b2 b3 b4 : Biosample)
    (v2j av4 : Json) (fs3 fs4 : List (String × Json))
    (h1 : b1.attributes = none)
    (h2 : b2.attributes = some v2j) (h2o : v2j.isObj = false)
    (h3 : b3.attributes = some (Json.obj fs3)) (h3l : lookupField fs3 "Attribute" = none)
    (h4 : b4.attributes = some (Json.obj fs4))
    (h4l : lookupField fs4 "Attribute" = some av4) (h4a : av4.isArr = false) :
    (processAttributes v b1).1 = []
    ∧ (processAttributes v b2).1 = []
    ∧ (processAttributes v b3).1 = []
    ∧ (processAttributes v b4).1 = []
    ∧ (processAttributes true b1).2 = [Diag.noAttributes]
    ∧ (processAttributes true b2).2 = [Diag.attributesNotObject]
    ∧ (processAttributes true b3).2 = [Diag.noAttributeField]
    ∧ (processAttributes true b4).2 = [Diag.attributeNotArray]
    ∧ Diag.noAttributes ≠ Diag.attributesNotObject
    ∧ Diag.noAttributes ≠ Diag.noAttributeField
    ∧ Diag.noAttributes ≠ Diag.attributeNotArray
    ∧ Diag.attributesNotObject ≠ Diag.noAttributeField
    ∧ Diag.attributesNotObject ≠ Diag.attributeNotArray
    ∧ Diag.noAttributeField ≠ Diag.attributeNotArray
    ∧ ∀ (st : RunState) (j : Json) (rest : List Json) (bb : Biosample),
        decodeBiosample j = some bb →
        runLoop v st (j :: rest) = runLoop v (stepDoc v st bb) rest := by
  have e1 : ∀ vv : Bool, processAttributes vv b1
      = ([], if vv then [Diag.noAttributes] else []) := fun vv =>
    processAttributes_none vv b1 h1
  have e2 : ∀ vv : Bool, processAttributes vv b2
      = ([], if vv then [Diag.attributesNotObject] else []) := fun vv => by
    rw [processAttributes_some vv b2 v2j h2]
    exact processAttrValue_not_obj vv (rowId b2.id) v2j h2o
  have e3 : ∀ vv : Bool, processAttributes vv b3
      = ([], if vv then [Diag.noAttributeField] else []) := fun vv => by
    rw [processAttributes_some vv b3 (Json.obj fs3) h3, processAttrValue_obj]
    exact processAttrObj_none vv (rowId b3.id) fs3 h3l
  have e4 : ∀ vv : Bool, processAttributes vv b4
      = ([], if vv then [Diag.attributeNotArray] else []) := fun vv => by
    rw [processAttributes_some vv b4 (Json.obj fs4) h4, processAttrValue_obj,
        processAttrObj_some vv (rowId b4.id) fs4 av4 h4l]
    exact processAttrInner_not_arr vv (rowId b4.id) av4 h4a
  refine ⟨by rw [e1 v], by rw [e2 v], by rw [e3 v], by rw [e4 v],
    by rw [e1 true]; rfl, by rw [e2 true]; rfl, by rw [e3 true]; rfl,
    by rw [e4 true]; rfl,
    by simp, by simp, by simp, by simp, by simp, by simp, ?_⟩
  intro st j rest bb hbb
  simp only [runLoop, hbb]

/-- Witness for C4 at four concrete documents, one per condition. -/
theorem c4_structural_absence_four_cases_witness :
    (processAttributes true ⟨"1", none, none, []⟩).2 = [Diag.noAttributes]
    ∧ (processAttributes true ⟨"1", some (Json.num 5), none, []⟩).2
        = [Diag.attributesNotObject]
    ∧ (processAttributes true ⟨"1", some (Json.obj []), none, []⟩).2
        = [Diag.noAttributeField]
    ∧ (processAttributes true
        ⟨"1", some (Json.obj [("Attribute", Json.str "z")]), none, []⟩).2
        = [Diag.attributeNotArray] := by
  have h := c4_structural_absence_four_cases true ⟨"1", none, none, []⟩
    ⟨"1", some (Json.num 5), none, []⟩ ⟨"1", some (Json.obj []), none, []⟩
    ⟨"1", some (Json.obj [("Attribute", Json.str "z")]), none, []⟩
    (Json.num 5) (Json.str "z") [] [("Attribute", Json.str "z")]
    rfl rfl rfl rfl rfl rfl rfl rfl
  exact ⟨h.2.2.2.2.1, h.2.2.2.2.2.1, h.2.2.2.2.2.2.1, h.2.2.2.2.2.2.2.1⟩

/-- C5: a document whose `Package` value decodes as `PackageData` yields
exactly one package row carrying the document's row identifier; a
document with no `Package`, or whose `Package` fails to decode, yields
zero package rows; and the attribute path is unaffected by the `Package`
value. -/
theorem c5_package_row_cardinality (v : Bool) (b : Biosample) :
    (∀ pv p, b.package = some pv → decodePackageData pv = some p →
        (processPackage v b).1 = [mkPkgRow (rowId b.id) p])
    ∧ (b.package = none → (processPackage v b).1 = [])
    ∧ (∀ pv, b.package = some pv → decodePackageData pv = none →
        (processPackage v b).1 = [])
    ∧ ∀ pv : Option Json,
        processAttributes v ⟨b.id, b.attributes, pv, b.extra⟩ = processAttributes v b := by
  refine ⟨?_, ?_, ?_, ?_⟩
  · intro pv p hpv hp
    rw [processPackage_some v b pv hpv p hp]
  · intro hn
    rw [processPackage_none v b hn]
  · intro pv hpv hp
    rw [processPackage_fail v b pv hpv hp]
  · intro pv
    exact processAttributes_congr v ⟨b.id, b.attributes, pv, b.extra⟩ b rfl rfl

/-- Witness for C5 at the spec's example package document. -/
theorem c5_package_row_cardinality_witness :
    (processPackage true
        ⟨"1", none, some (Json.obj [("content", Json.str "P1"),
           ("display_name", Json.str "Microbial")]), []⟩).1
      = [⟨"P1", "Microbial", 1⟩] := by
  have h := (c5_package_row_cardinality true
    ⟨"1", none, some (Json.obj [("content", Json.str "P1"),
       ("display_name", Json.str "Microbial")]), []⟩).1
    (Json.obj [("content", Json.str "P1"), ("display_name", Json.str "Microbial")])
    ⟨some "P1", some "Microbial", []⟩ rfl rfl
  rw [h]
  rfl

/-- C6: on a successfully decoded record each absent optional text field
is still `none` after decoding (absence survives the decode) and is
turned into the empty string only at row construction (`mkAttrRow` and
`mkPkgRow`), for all five attribute fields and both package fields. -/
theorem c6_absent_fields_default_to_empty_string (rid : Int) (a : AttributeData)
    (p : PackageData) (fs gs : List (String × Json)) (a2 : AttributeData)
    (p2 : PackageData)
    (hda : decodeAttributeData (Json.obj fs) = some a2)
    (hdp : decodePackageData (Json.obj gs) = some p2) :
    (a.content = none → (mkAttrRow rid a).content = "")
    ∧ (a.attribute_name = none → (mkAttrRow rid a).attribute_name = "")
    ∧ (a.harmonized_name = none → (mkAttrRow rid a).harmonized_name = "")
    ∧ (a.display_name = none → (mkAttrRow rid a).display_name = "")
    ∧ (a.unit = none → (mkAttrRow rid a).unit = "")
    ∧ (p.content = none → (mkPkgRow rid p).content = "")
    ∧ (p.display_name = none → (mkPkgRow rid p).display_name = "")
    ∧ (lookupField fs "content" = none → a2.content = none)
    ∧ (lookupField fs "attribute_name" = none → a2.attribute_name = none)
    ∧ (lookupField fs "harmonized_name" = none → a2.harmonized_name = none)
    ∧ (lookupField fs "display_name" = none → a2.display_name = none)
    ∧ (lookupField fs "unit" = none → a2.unit = none)
    ∧ (lookupField gs "content" = none → p2.content = none)
    ∧ (lookupField gs "display_name" = none → p2.display_name = none) := by
  have hfa := decodeAttributeData_fields fs a2 hda
  have hfp := decodePackageData_fields gs p2 hdp
  have habs : ∀ (hs : List (String × Json)) (k : String), lookupField hs k = none →
      decodeField hs k = some none := by
    intro hs k h
    unfold decodeField
    rw [h]
  refine ⟨?_, ?_, ?_, ?_, ?_, ?_, ?_, ?_, ?_, ?_, ?_, ?_, ?_, ?_⟩
  · intro h; simp [mkAttrRow, h]
  · intro h; simp [mkAttrRow, h]
  · intro h; simp [mkAttrRow, h]
  · intro h; simp [mkAttrRow, h]
  · intro h; simp [mkAttrRow, h]
  · intro h; simp [mkPkgRow, h]
  · intro h; simp [mkPkgRow, h]
  · intro h
    have h2 := hfa.1.trans (habs fs "content" h)
    injection h2
  · intro h
    have h2 := hfa.2.1.trans (habs fs "attribute_name" h)
    injection h2
  · intro h
    have h2 := hfa.2.2.1.trans (habs fs "harmonized_name" h)
    injection h2
  · intro h
    have h2 := hfa.2.2.2.1.trans (habs fs "display_name" h)
    injection h2
  · intro h
    have h2 := hfa.2.2.2.2.trans (habs fs "unit" h)
    injection h2
  · intro h
    have h2 := hfp.1.trans (habs gs "content" h)
    injection h2
  · intro h
    have h2 := hfp.2.trans (habs gs "display_name" h)
    injection h2

/-- Witness for C6: an empty object decodes with every field absent and
its row is all empty strings. -/
theorem c6_absent_fields_default_to_empty_string_witness :
    (mkAttrRow 5 ⟨none, none, none, none, none, []⟩).content = ""
    ∧ (mkPkgRow 5 ⟨none, none, []⟩).display_name = ""
    ∧ (⟨none, none, none, none, none, []⟩ : AttributeData).content = none := by
  have h := c6_absent_fields_default_to_empty_string 5
    ⟨none, none, none, none, none, []⟩ ⟨none, none, []⟩ [] []
    ⟨none, none, none, none, none, []⟩ ⟨none, none, []⟩ rfl rfl
  exact ⟨h.1 rfl, h.2.2.2.2.2.2.1 rfl, h.2.2.2.2.2.2.2.1 rfl⟩

/-- C7: with a cap L > 0 the run is the run over the first L stream
documents only (so at most L documents are read and every emitted row
derives from them), and a cap of 0 leaves the stream untruncated — the
whole stream is processed when no document aborts the run. -/
theorem c7_document_cap (v : Bool) (L : Int) (t : SinkTables) (docs : List Json) :
    (0 < L →
        runPipeline v L t docs = runPipeline v 0 t (docs.take L.toNat)
        ∧ (runPipeline v L t docs).processed ≤ L.toNat)
    ∧ applyLimit 0 docs = docs
    ∧ ((runPipeline v 0 t docs).aborted = false →
        (runPipeline v 0 t docs).processed = docs.length) := by
  refine ⟨?_, applyLimit_zero docs, ?_⟩
  · intro hL
    have hap : applyLimit L docs = docs.take L.toNat := by
      unfold applyLimit
      rw [if_pos (by omega : L > 0)]
    constructor
    · unfold runPipeline
      rw [hap, applyLimit_zero]
    · unfold runPipeline
      rw [hap]
      have h1 := runLoop_processed_le v (docs.take L.toNat) (initState t)
      have h2 : (initState t).processed = 0 := rfl
      rw [h2] at h1
      have h3 : (docs.take L.toNat).length ≤ L.toNat := by
        rw [List.length_take]
        omega
      omega
  · intro hab
    unfold runPipeline at hab ⊢
    rw [applyLimit_zero] at hab ⊢
    have h1 := runLoop_processed_of_not_aborted v docs (initState t) hab
    have h2 : (initState t).processed = 0 := rfl
    rw [h1, h2]
    omega

/-- Witness for C7: cap 1 over a two-document stream. -/
theorem c7_document_cap_witness :
    runPipeline false 1 emptyTables
        [Json.obj [("id", Json.str "1")], Json.obj [("id", Json.str "2")]]
      = runPipeline false 0 emptyTables [Json.obj [("id", Json.str "1")]]
    ∧ (runPipeline false 1 emptyTables
        [Json.obj [("id", Json.str "1")], Json.obj [("id", Json.str "2")]]).processed ≤ 1 := by
  have h := (c7_document_cap false 1 emptyTables
    [Json.obj [("id", Json.str "1")], Json.obj [("id", Json.str "2")]]).1 (by norm_num)
  exact ⟨h.1, h.2⟩

/-- C8: every run starts by dropping and recreating both sink tables, so
the tables a run leaves behind never depend on what was in the sink
before: a second run over the prior run's sink equals the second run over
an empty sink. -/
theorem c8_tables_recreated_per_run (v1 v2 : Bool) (l1 l2 : Int) (t : SinkTables)
    (docs1 docs2 : List Json) :
    recreateTables t = emptyTables
    ∧ runPipeline v2 l2 (sinkOf (runPipeline v1 l1 t docs1)) docs2
        = runPipeline v2 l2 emptyTables docs2 :=
  ⟨rfl, rfl⟩

/-- C9 counterexample: the claim says the Package path runs before the
Attribute path, so a document with both a valid package and a decodable
attribute element would emit its package row first.  The code processes
Attributes first (lines 156-194) and Package second (lines 196-222): for
such a document the emission sequence is the attribute row and then the
package row, so the package row is not emitted before the attribute
rows. -/
theorem c9_counterexample :
    (processDoc false
        ⟨"1", some (Json.obj [("Attribute", Json.arr [Json.obj []])]),
         some (Json.obj []), []⟩).1
      = [Emit.attr ⟨"", "", 1, "", "", ""⟩, Emit.pkg ⟨"", "", 1⟩]
    ∧ pkgsThenAttrs (processDoc false
        ⟨"1", some (Json.obj [("Attribute", Json.arr [Json.obj []])]),
         some (Json.obj []), []⟩).1 = false :=
  ⟨rfl, rfl⟩

/-- C9 (amended): for each document the Attribute path runs before the
Package path, so every attribute row of a document is emitted before its
package row. -/
theorem c9_attribute_rows_before_package_row (v : Bool) (b : Biosample) :
    attrsThenPkgs (processDoc v b).1 = true := by
  unfold processDoc
  exact attrsThenPkgs_append (processAttributes v b).1 (processPackage v b).1

/-- Unfolding of the document decoder on an object value. -/
theorem decodeBiosample_obj (fs : List (String × Json)) :
    decodeBiosample (Json.obj fs)
      = match lookupField fs "id" with
        | some (Json.str s) =>
            some ⟨s,
                  (match lookupField fs "Attributes" with
                   | none => none
                   | some Json.null => none
                   | some v => some v),
                  (match lookupField fs "Package" with
                   | none => none
                   | some Json.null => none
                   | some v => some v),
                  fs.filter (fun p => !(["id", "Attributes", "Package"].contains p.1))⟩
        | _ => none := rfl

/-- C10: a stream document lacking the top-level `id` field fails to
deserialize as a whole; the run aborts right there with the state it had
after the preceding documents, independent of whatever documents follow
— the bad document is not skipped and no later document is processed. -/
theorem c10_missing_id_aborts_run (v : Bool) (t : SinkTables) (pre rest : List Json)
    (bfs : List (String × Json))
    (hpre : pre.all (fun j => (decodeBiosample j).isSome) = true)
    (hbad : lookupField bfs "id" = none) :
    decodeBiosample (Json.obj bfs) = none
    ∧ runPipeline v 0 t (pre ++ Json.obj bfs :: rest)
        = { runPipeline v 0 t pre with aborted := true } := by
  have hdec : decodeBiosample (Json.obj bfs) = none := by
    rw [decodeBiosample_obj, hbad]
  refine ⟨hdec, ?_⟩
  unfold runPipeline
  rw [applyLimit_zero, applyLimit_zero]
  exact runLoop_abort v (Json.obj bfs) hdec pre rest (initState t) hpre

/-- Witness for C10: the second of three stream documents lacks `id`; the
run aborts there and the third document is never processed. -/
theorem c10_missing_id_aborts_run_witness :
    decodeBiosample (Json.obj [("accession", Json.str "S1")]) = none
    ∧ runPipeline false 0 emptyTables
        [Json.obj [("id", Json.str "1")], Json.obj [("accession", Json.str "S1")],
         Json.obj [("id", Json.str "2")]]
        = { runPipeline false 0 emptyTables [Json.obj [("id", Json.str "1")]] with
            aborted := true } :=
  c10_missing_id_aborts_run false emptyTables [Json.obj [("id", Json.str "1")]]
    [Json.obj [("id", Json.str "2")]] [("accession", Json.str "S1")] rfl rfl
